import Mathlib

/-!
Verification development for the gologger structured-logging library.

The definitions below are a shallow embedding of the Go sources:
`gologger.go` (event construction and dispatch, slog adapter),
`writer/filewithrotation.go` (date-based rotating file writer),
the two console writer variants, and the level model.
Side effects (formatter calls, writer calls, process exit, file
operations) are made explicit as action traces returned by the
embedded functions.
-/

namespace Gologger

/-- Modelled from the spec: the `levels` package is imported by
`gologger.go` but its source is not in the tree.  §4.1 fixes the
total order Fatal < Error < Warning < Info < Debug < Verbose with
Silent sitting between Info and the rest, levels being integer
constants and the enabled test being `level <= maxLevel`. -/
abbrev Level := Nat

/-- Modelled from the spec: Fatal is the most severe level ("Fatal
always enabled once any logging is enabled"). -/
def LevelFatal : Level := 0

/-- Modelled from the spec: Error follows Fatal in the primary order. -/
def LevelError : Level := 1

/-- Modelled from the spec: Warning follows Error. -/
def LevelWarning : Level := 2

/-- Modelled from the spec: Silent sits between Info and the more
severe levels so it is included whenever Info-or-noisier logging is
enabled. -/
def LevelSilent : Level := 3

/-- Modelled from the spec: Info follows Silent. -/
def LevelInfo : Level := 4

/-- Modelled from the spec: Debug follows Info. -/
def LevelDebug : Level := 5

/-- Modelled from the spec: Verbose is the least severe level. -/
def LevelVerbose : Level := 6

/-! ## slog values and `formatAttrValue` (gologger.go lines 269-325) -/

/-- A Go `float64`, classified the way `formatAttrValue` inspects it
(`math.IsNaN`, `math.IsInf`); a finite float carries its `%g`
rendering, which this development treats as atomic (the claims never
touch finite floats). -/
inductive GoFloat where
  | nan : GoFloat
  | posInf : GoFloat
  | negInf : GoFloat
  | finite (g : String) : GoFloat
deriving DecidableEq

/-- A Go `time.Time`, modelled by its civil decomposition together
with its UTC offset in minutes (`offsetMin = 0` is UTC, printed as
`Z` by RFC 3339). -/
structure GoTime where
  year : Nat
  month : Nat
  day : Nat
  hour : Nat
  minute : Nat
  sec : Nat
  offsetMin : Int
deriving DecidableEq

/-- `time.Time.IsZero`: the zero instant is January 1, year 1,
00:00:00 UTC. -/
def GoTime.isZero (t : GoTime) : Bool :=
  t = ⟨1, 1, 1, 0, 0, 0, 0⟩

/-- A value stored in a `slog.KindAny` slot: either a non-nil value
carried with its `%+v` structural rendering, or a value whose
formatting panics with the given reason (e.g. a `String` method that
panics). -/
inductive GoAny where
  | dump (plusv : String) : GoAny
  | panics (reason : String) : GoAny
deriving DecidableEq

/-- `slog.Value`, one constructor per `slog.Kind` inspected by
`formatAttrValue`.  `KindAny` holds `none` for a nil interface
value.  A group value carries its `String()` rendering. -/
inductive SlogValue where
  | str (s : String) : SlogValue
  | int64 (i : Int) : SlogValue
  | uint64 (n : Nat) : SlogValue
  | float64 (f : GoFloat) : SlogValue
  | bool (b : Bool) : SlogValue
  | duration (ns : Int) : SlogValue
  | time (t : GoTime) : SlogValue
  | any (v : Option GoAny) : SlogValue
  | group (s : String) : SlogValue
deriving DecidableEq

/-- Left-pad a string with `'0'` to the given width (helper for
Go's fixed-width numeric layout elements). -/
def zeroPad (width : Nat) (s : String) : String :=
  if s.length < width then String.mk (List.replicate (width - s.length) '0') ++ s else s

/-- Drop trailing `'0'` characters (Go `fmtFrac` omits trailing
zeros of the fractional part). -/
def dropTrailingZeros (s : String) : String :=
  String.mk (s.data.reverse.dropWhile (fun c => c = '0')).reverse

/-- Go `time.fmtFrac`: render `prec` fractional digits of `u`
(trailing zeros omitted, leading `"."` when any digit remains) and
return the integer part `u / 10^prec`. -/
def fmtFracGo (u : Nat) (prec : Nat) : String × Nat :=
  let digits := zeroPad prec (toString (u % 10 ^ prec))
  let s := dropTrailingZeros digits
  (if s = "" then "" else "." ++ s, u / 10 ^ prec)

/-- Go `time.Duration.String()` on a duration of `d` nanoseconds:
sub-second durations use `ns`/`µs`/`ms` units, others use
`h`/`m`/`s` with a fractional seconds part. -/
def durationStringGo (d : Int) : String :=
  let u := d.natAbs
  let core : String :=
    if u < 1000000000 then
      if u = 0 then "0s"
      else if u < 1000 then toString u ++ "ns"
      else if u < 1000000 then
        let p := fmtFracGo u 3
        toString p.2 ++ p.1 ++ "µs"
      else
        let p := fmtFracGo u 6
        toString p.2 ++ p.1 ++ "ms"
    else
      let p := fmtFracGo u 9
      let secs := p.2
      let s1 := toString (secs % 60) ++ p.1 ++ "s"
      let mins := secs / 60
      if mins = 0 then s1
      else
        let s2 := toString (mins % 60) ++ "m" ++ s1
        let hours := mins / 60
        if hours = 0 then s2 else toString hours ++ "h" ++ s2
  if d < 0 ∧ u ≠ 0 then "-" ++ core else core

/-- Go `time.Time.Format(time.RFC3339)` over the civil fields:
`YYYY-MM-DDTHH:MM:SS` followed by `Z` for UTC or a signed
`±HH:MM` offset. -/
def formatRFC3339 (t : GoTime) : String :=
  let datePart := zeroPad 4 (toString t.year) ++ "-" ++ zeroPad 2 (toString t.month) ++ "-" ++
    zeroPad 2 (toString t.day)
  let timePart := zeroPad 2 (toString t.hour) ++ ":" ++ zeroPad 2 (toString t.minute) ++ ":" ++
    zeroPad 2 (toString t.sec)
  let offs :=
    if t.offsetMin = 0 then "Z"
    else
      (if t.offsetMin < 0 then "-" else "+") ++ zeroPad 2 (toString (t.offsetMin.natAbs / 60)) ++
        ":" ++ zeroPad 2 (toString (t.offsetMin.natAbs % 60))
  datePart ++ "T" ++ timePart ++ offs

/-- The body of `formatAttrValue` (gologger.go lines 279-324), run
under the `defer`/`recover` installed at lines 271-277: `.error r`
models a panic with reason `r` escaping to the recover handler. -/
def formatAttrValueBody : SlogValue → Except String String
  | .str s => .ok s
  | .int64 i => .ok (toString i)
  | .uint64 n => .ok (toString n)
  | .float64 .nan => .ok "NaN"
  | .float64 .posInf => .ok "+Inf"
  | .float64 .negInf => .ok "-Inf"
  | .float64 (.finite g) => .ok g
  | .bool b => .ok (if b then "true" else "false")
  | .duration ns => .ok (durationStringGo ns)
  | .time t => .ok (if t.isZero then "0001-01-01T00:00:00Z" else formatRFC3339 t)
  | .any none => .ok "<nil>"
  | .any (some (.dump s)) => .ok s
  | .any (some (.panics r)) => .error r
  | .group s => .ok ("[group:" ++ s ++ "]")

/-- `formatAttrValue` (gologger.go lines 269-325): run the body and,
if it panics, recover and substitute the fallback string
`<error formatting value: r>`. -/
def formatAttrValue (v : SlogValue) : String :=
  match formatAttrValueBody v with
  | .ok s => s
  | .error r => "<error formatting value: " ++ r ++ ">"

/-! ## Logger, Event and the dispatch pipeline (gologger.go) -/

/-- A rendered byte payload (`[]byte`), modelled as a string. -/
abbrev Payload := String

/-- `formatter.LogEvent`: message, level and string-keyed metadata
handed to `Formatter.Format`.  The Go metadata map is modelled as an
association list. -/
structure LogEvent where
  Message : String
  Level : Level
  Metadata : List (String × String)
deriving DecidableEq

/-- `Logger` (gologger.go lines 42-50).  The formatter strategy is
embedded as its `Format` function, returning either a payload or an
error; the writer is an opaque reference (its behaviour is recorded
in action traces). -/
structure Logger where
  writer : Nat
  maxLevel : Level
  format : LogEvent → Except String Payload
  timestampMinLevel : Level
  timestamp : Bool
  groupPrefix : String
  persistedAttrs : List (String × SlogValue)

/-- `Event` (gologger.go lines 95-100): back-reference to the owning
logger, level, message and metadata. -/
structure Event where
  logger : Logger
  level : Level
  message : String
  metadata : List (String × String)

/-- `isCurrentLevelEnabled` (gologger.go lines 264-266). -/
def isCurrentLevelEnabled (e : Event) : Bool :=
  e.level ≤ e.logger.maxLevel

/-- Whether the first character list is a prefix of the second
(Go `strings.HasPrefix` over the characters). -/
def listStartsWith : List Char → List Char → Bool
  | [], _ => true
  | _ :: _, [] => false
  | p :: ps, c :: cs => if p = c then listStartsWith ps cs else false

/-- Whether the first character list is a suffix of the second. -/
def listEndsWith (sfx l : List Char) : Bool :=
  listStartsWith sfx.reverse l.reverse

/-- `strings.TrimSuffix`: drop one trailing occurrence of `sfx`
when present. -/
def goTrimSuffix (s sfx : String) : String :=
  if listEndsWith sfx.data s.data then
    String.mk (s.data.take (s.data.length - sfx.data.length))
  else s

/-- `strings.TrimPrefix`: drop one leading occurrence of `pre` when
present. -/
def goTrimPrefix (s pre : String) : String :=
  if listStartsWith pre.data s.data then String.mk (s.data.drop pre.data.length) else s

/-- One observable side effect of `Logger.Log`, in program order:
a `Formatter.Format` call, a `Writer.Write` call, or `os.Exit`. -/
inductive Action where
  | formatCall (ev : LogEvent) : Action
  | writeCall (data : Payload) (lvl : Level) : Action
  | exitCall (code : Nat) : Action
deriving DecidableEq

/-- The `formatter.LogEvent` that `Logger.Log` hands to the
formatter (gologger.go lines 57-62): the event's message with one
trailing newline trimmed, its level and its metadata. -/
def trimmedLogEvent (e : Event) : LogEvent :=
  ⟨goTrimSuffix e.message "\n", e.level, e.metadata⟩

/-- `Logger.Log` (gologger.go lines 53-71), as the ordered trace of
its side effects: nothing when the level is not enabled; otherwise
the formatter runs on the trimmed event, a formatting error drops
the event, a successful format is written once, and a Fatal-level
event exits with status 1 after the write. -/
def Logger.Log (l : Logger) (e : Event) : List Action :=
  if ¬ isCurrentLevelEnabled e then []
  else
    match l.format (trimmedLogEvent e) with
    | .error _ => [.formatCall (trimmedLogEvent e)]
    | .ok data =>
        [.formatCall (trimmedLogEvent e), .writeCall data e.level] ++
          (if e.level = LevelFatal then [.exitCall 1] else [])

/-- Number of `Writer.Write` invocations in a trace. -/
def writeCount (tr : List Action) : Nat :=
  (tr.filter fun a => match a with | .writeCall _ _ => true | _ => false).length

/-- Number of `Formatter.Format` invocations in a trace. -/
def formatCount (tr : List Action) : Nat :=
  (tr.filter fun a => match a with | .formatCall _ => true | _ => false).length

/-- `Event.MsgFunc` (gologger.go lines 154-160): returns how many
times the supplier was invoked together with the dispatch trace.
When the level is not enabled the supplier never runs and nothing is
dispatched; otherwise the supplier runs once and its result becomes
the message handed to `Logger.Log`. -/
def Event.MsgFunc (e : Event) (messageSupplier : Unit → String) : Nat × List Action :=
  if ¬ isCurrentLevelEnabled e then (0, [])
  else (1, e.logger.Log { e with message := messageSupplier () })

/-- `Logger.WithAttrs` (gologger.go lines 440-455): a fresh logger
sharing every configuration field, whose persisted attributes are a
fresh copy of the receiver's followed by the new ones. -/
def Logger.WithAttrs (l : Logger) (attrs : List (String × SlogValue)) : Logger :=
  { l with persistedAttrs := l.persistedAttrs ++ attrs }

/-- `Logger.WithGroup` (gologger.go lines 458-489): a fresh logger
sharing every configuration field, whose group prefix extends the
receiver's with `name ++ "."` (just `"."` for an empty name). -/
def Logger.WithGroup (l : Logger) (name : String) : Logger :=
  let newPrefix :=
    if name = "" then
      if l.groupPrefix = "" then "." else l.groupPrefix ++ "."
    else
      if l.groupPrefix = "" then name ++ "." else l.groupPrefix ++ name ++ "."
  { l with groupPrefix := newPrefix }

/-- The metadata key `Logger.Handle` stores an attribute under
(gologger.go lines 423-433): the group prefix prepended to the
attribute key. -/
def handleKey (l : Logger) (key : String) : String :=
  l.groupPrefix ++ key

/-! ## Console writers (unnamed/part_001, two variants) -/

/-- An output stream of the console writer. -/
inductive OutStream where
  | stdout : OutStream
  | stderr : OutStream
deriving DecidableEq

/-- `CLI.Write`, current variant (unnamed/part_001 lines 23-35):
Silent goes to stdout, every other level to stderr, each followed by
the platform newline on the same stream.  `newLine` abstracts the
platform-dependent `writer.NewLine`. -/
def cliWrite (data : Payload) (level : Level) (newLine : String) : List (OutStream × String) :=
  if level = LevelSilent then
    [(.stdout, data), (.stdout, newLine)]
  else
    [(.stderr, data), (.stderr, newLine)]

/-- `CLI.Write`, legacy variant (unnamed/part_001 lines 58-70):
Silent goes to stdout; at every other level the payload goes to
stderr but the trailing newline is written to stdout. -/
def cliWriteLegacy (data : Payload) (level : Level) (newLine : String) : List (OutStream × String) :=
  if level = LevelSilent then
    [(.stdout, data), (.stdout, newLine)]
  else
    [(.stderr, data), (.stdout, newLine)]

/-! ## Rotating file writer (writer/filewithrotation.go) -/

/-- A calendar date as produced by `time.Time.Date()`. -/
structure GoDate where
  year : Nat
  month : Nat
  day : Nat
deriving DecidableEq

/-- `dateEqual` (filewithrotation.go lines 167-171): same year,
month and day. -/
def dateEqual (date1 date2 : GoDate) : Bool :=
  date1.year = date2.year ∧ date1.month = date2.month ∧ date1.day = date2.day

/-- `FileWithRotationOptions` (filewithrotation.go lines 35-41).
The rotation interval is in nanoseconds (`time.Duration`). -/
structure FileWithRotationOptions where
  Location : String
  Rotate : Bool
  RotationInterval : Nat
  FileName : String
  Compress : Bool
deriving DecidableEq

/-- Go leap-year rule. -/
def isLeapYear (y : Nat) : Bool :=
  y % 4 = 0 ∧ (y % 100 ≠ 0 ∨ y % 400 = 0)

/-- Days in a month, as validated by Go `time.Parse`. -/
def daysInMonth (y m : Nat) : Nat :=
  if m = 2 then (if isLeapYear y then 29 else 28)
  else if m = 4 ∨ m = 6 ∨ m = 9 ∨ m = 11 then 30
  else 31

/-- The backup timestamp layout (filewithrotation.go lines 157-159)
is `"2006-01-02"`: four year digits, two month digits, two day
digits, dash-separated.  `formatBackupTime` is
`time.Now().Format(backupTimeFormat)` on a given date. -/
def formatBackupTime (d : GoDate) : String :=
  zeroPad 4 (toString d.year) ++ "-" ++ zeroPad 2 (toString d.month) ++ "-" ++
    zeroPad 2 (toString d.day)

/-- Numeric value of a decimal digit character. -/
def digitVal (c : Char) : Nat :=
  c.toNat - '0'.toNat

/-- `time.Parse(backupTimeFormat, s)`: the whole string must be
exactly `YYYY-MM-DD` with decimal digits, and the month and day must
be in range, otherwise parsing errors (`none`). -/
def parseBackupTime (s : String) : Option GoDate :=
  match s.data with
  | [y1, y2, y3, y4, c1, m1, m2, c2, d1, d2] =>
      if (y1.isDigit ∧ y2.isDigit ∧ y3.isDigit ∧ y4.isDigit ∧ c1 = '-' ∧
          m1.isDigit ∧ m2.isDigit ∧ c2 = '-' ∧ d1.isDigit ∧ d2.isDigit) then
        let y := ((digitVal y1 * 10 + digitVal y2) * 10 + digitVal y3) * 10 + digitVal y4
        let m := digitVal m1 * 10 + digitVal m2
        let d := digitVal d1 * 10 + digitVal d2
        if 1 ≤ m ∧ m ≤ 12 ∧ 1 ≤ d ∧ d ≤ daysInMonth y m then some ⟨y, m, d⟩ else none
      else none
  | _ => none

/-- `path.Join(dir, name)` for already-clean components: `name` when
the directory is empty, otherwise `dir ++ "/" ++ name`. -/
def pathJoin (dir name : String) : String :=
  if dir = "" then name else dir ++ "/" ++ name

/-- `buildRotateName` (filewithrotation.go lines 127-131): the new
file name is the location joined with
`base ++ "-" ++ timestamp ++ ".log"`, where `base` is
`filepath.Base(os.Args[0])` and the timestamp is today formatted
with the backup layout. -/
def buildRotateName (location base : String) (now : GoDate) : String :=
  pathJoin location (base ++ "-" ++ formatBackupTime now ++ ".log")

/-- The timestamp extraction performed by `checkAndRotate`
(filewithrotation.go lines 85-86): trim the `base ++ "-"` prefix and
the `".log"` suffix off the stored file name. -/
def extractBackupTimestamp (fileName base : String) : String :=
  goTrimSuffix (goTrimPrefix fileName (base ++ "-")) ".log"

/-- The rotation decision of `checkAndRotate` (filewithrotation.go
lines 84-101): rotate exactly when the extracted timestamp parses
with the backup layout and its calendar date differs from today;
a parse error silently skips the check. -/
def checkAndRotateDecision (fileName base : String) (now : GoDate) : Bool :=
  match parseBackupTime (extractBackupTimestamp fileName base) with
  | none => false
  | some t => !(dateEqual t now)

/-- A file-system operation performed by the rotation writer. -/
inductive FileAction where
  | closeFile (f : String) : FileAction
  | compressFile (src dst : String) : FileAction
  | removeFile (f : String) : FileAction
  | createFile (f : String) : FileAction
  | renameFile (src dst : String) : FileAction
deriving DecidableEq

/-- The file operations of one `checkAndRotate` tick (filewithrotation.go
lines 84-101) in program order, together with the file name stored in
the options afterwards.  On rotation: `Close` the current file; when
compression is enabled, `compressLogs` archives the old file to
`old ++ ".gz"` and removes the original (asynchronously, off the
critical path); `newLogger` then builds a fresh timestamped name and
creates it.  The old file is never renamed. -/
def checkAndRotateActions (opts : FileWithRotationOptions) (base : String) (now : GoDate) :
    List FileAction × String :=
  if checkAndRotateDecision opts.FileName base now then
    let old := opts.FileName
    let newName := buildRotateName opts.Location base now
    ([FileAction.closeFile old] ++
      (if opts.Compress then
        [FileAction.compressFile old (old ++ ".gz"), FileAction.removeFile old]
      else []) ++
      [FileAction.createFile newName], newName)
  else ([], opts.FileName)

/-- `FileWithRotation.Write` (filewithrotation.go lines 70-82): both
switch arms append the payload and a `"\n"` to the current file;
no size accounting and no rotation happens on the write path. -/
def fileWithRotationWrite (fileName : String) (data : Payload) (level : Level) :
    List (String × String) :=
  if level = LevelSilent then [(fileName, data), (fileName, "\n")]
  else [(fileName, data), (fileName, "\n")]

/-- Nanoseconds in a civil day. -/
def nsPerDay : Nat := 86400000000000

/-- Days from 1970-01-01 of a proleptic Gregorian civil date
(standard civil-from-days inverse), used to compare instants. -/
def daysFromCivil (y m d : Int) : Int :=
  let y2 := if m ≤ 2 then y - 1 else y
  let era := (if 0 ≤ y2 then y2 else y2 - 399) / 400
  let yoe := y2 - era * 400
  let mp := if 2 < m then m - 3 else m + 9
  let doy := (153 * mp + 2) / 5 + d - 1
  let doe := yoe * 365 + yoe / 4 - yoe / 100 + doy
  era * 146097 + doe - 719468

/-- The instant, in nanoseconds from the 1970 epoch, of a given
civil date plus a nanosecond offset within the day. -/
def instantOf (d : GoDate) (nsOfDay : Nat) : Int :=
  daysFromCivil d.year d.month d.day * (nsPerDay : Int) + nsOfDay

/-- Modelled from the spec: the rotation trigger claimed by the spec
(§4.5) for a check tick —
`sizeExceeded = maxSize > 0 && currentSize >= maxSize` or
`ageExceeded = rotationInterval > 0 && fileBirthTime + rotationInterval < now` —
with instants in nanoseconds from the epoch.  The options of the
source (filewithrotation.go lines 35-41) have no size field; this
definition exists only to compare the claim with the code. -/
def specRotationTrigger (maxSize currentSize rotationInterval : Nat)
    (fileBirthTime now : Int) : Bool :=
  (0 < maxSize ∧ maxSize ≤ currentSize) ∨
    (0 < rotationInterval ∧ fileBirthTime + (rotationInterval : Int) < now)


/-! ## Trace-shape lemmas for `Logger.Log` -/

/-- When the event's level is not enabled, `Log` is a silent no-op. -/
theorem log_eq_of_disabled {e : Event} (h : isCurrentLevelEnabled e = false) :
    e.logger.Log e = [] := by
  unfold Logger.Log
  rw [if_pos]
  simp [h]

/-- When the level is enabled and the formatter errors, `Log` only
calls the formatter. -/
theorem log_eq_of_error {e : Event} {msg : String}
    (hen : isCurrentLevelEnabled e = true)
    (hf : e.logger.format (trimmedLogEvent e) = Except.error msg) :
    e.logger.Log e = [Action.formatCall (trimmedLogEvent e)] := by
  unfold Logger.Log
  rw [hf, if_neg]
  simp [hen]

/-- When the level is enabled, the formatter succeeds and the level
is Fatal, `Log` formats, writes once and exits with status 1. -/
theorem log_eq_of_ok_fatal {e : Event} {data : Payload}
    (hen : isCurrentLevelEnabled e = true)
    (hf : e.logger.format (trimmedLogEvent e) = Except.ok data)
    (hfat : e.level = LevelFatal) :
    e.logger.Log e = [Action.formatCall (trimmedLogEvent e),
      Action.writeCall data e.level, Action.exitCall 1] := by
  unfold Logger.Log
  rw [hf, if_neg, if_pos hfat]
  · simp
  · simp [hen]

/-- When the level is enabled, the formatter succeeds and the level
is not Fatal, `Log` formats and writes once. -/
theorem log_eq_of_ok_nonfatal {e : Event} {data : Payload}
    (hen : isCurrentLevelEnabled e = true)
    (hf : e.logger.format (trimmedLogEvent e) = Except.ok data)
    (hfat : ¬ e.level = LevelFatal) :
    e.logger.Log e = [Action.formatCall (trimmedLogEvent e),
      Action.writeCall data e.level] := by
  unfold Logger.Log
  rw [hf, if_neg, if_neg hfat]
  · simp
  · simp [hen]

/-! ## Concrete fixtures used by witnesses and counterexamples -/

/-- A logger whose formatter always fails. -/
def failingFormatLogger : Logger :=
  { writer := 0, maxLevel := LevelInfo, format := fun _ => Except.error "fmt",
    timestampMinLevel := 0, timestamp := false, groupPrefix := "", persistedAttrs := [] }

/-- An Info-level event owned by `failingFormatLogger`. -/
def failingFormatEvent : Event :=
  { logger := failingFormatLogger, level := LevelInfo, message := "x", metadata := [] }

/-- A Fatal-level event owned by `failingFormatLogger`. -/
def failingFatalEvent : Event :=
  { logger := failingFormatLogger, level := LevelFatal, message := "boom", metadata := [] }

/-- A logger whose formatter always succeeds with payload `"out"`. -/
def okFormatLogger : Logger :=
  { writer := 0, maxLevel := LevelInfo, format := fun _ => Except.ok "out",
    timestampMinLevel := 0, timestamp := false, groupPrefix := "", persistedAttrs := [] }

/-- An Info-level event owned by `okFormatLogger`. -/
def okFormatEvent : Event :=
  { logger := okFormatLogger, level := LevelInfo, message := "login", metadata := [] }

/-- A Fatal-level event owned by `okFormatLogger`. -/
def okFatalEvent : Event :=
  { logger := okFormatLogger, level := LevelFatal, message := "boom", metadata := [] }

/-- A Verbose-level event owned by `okFormatLogger` (not enabled,
since the logger's max level is Info). -/
def verboseEvent : Event :=
  { logger := okFormatLogger, level := LevelVerbose, message := "", metadata := [] }

/-! ## C1 -/

/-- C1 (as stated): the formatter and the writer are invoked, the
writer exactly once, if and only if the event's level is enabled
against the logger's max level. -/
def claimOneStatement (l : Logger) (e : Event) : Prop :=
  (1 ≤ formatCount (l.Log e) ∧ writeCount (l.Log e) = 1) ↔ e.level ≤ l.maxLevel

/-- C1 counterexample: for a logger whose formatter returns an error
and an enabled Info-level event, the formatter runs but the writer
is never invoked, so "the writer is invoked exactly once iff the
level is enabled" fails. -/
theorem claimOne_counterexample :
    ¬ claimOneStatement failingFormatLogger failingFormatEvent := by
  unfold claimOneStatement
  decide

/-- C1 (amended): dispatch is a silent no-op (no formatter call, no
writer call) when the level is not enabled; when it is enabled the
formatter is invoked exactly once, and the writer is invoked exactly
once if the formatter succeeds and zero times if it errors. -/
theorem claimOne_amended (l : Logger) (e : Event) (hl : e.logger = l) :
    (¬ e.level ≤ l.maxLevel → l.Log e = []) ∧
    (e.level ≤ l.maxLevel →
      formatCount (l.Log e) = 1 ∧
      (∀ p, l.format (trimmedLogEvent e) = Except.ok p → writeCount (l.Log e) = 1) ∧
      (∀ msg, l.format (trimmedLogEvent e) = Except.error msg →
        writeCount (l.Log e) = 0)) := by
  subst hl
  constructor
  · intro h
    exact log_eq_of_disabled (by unfold isCurrentLevelEnabled; exact decide_eq_false h)
  · intro h
    have hen : isCurrentLevelEnabled e = true := by
      unfold isCurrentLevelEnabled; exact decide_eq_true h
    refine ⟨?_, ?_, ?_⟩
    · cases hf : e.logger.format (trimmedLogEvent e) with
      | error msg => rw [log_eq_of_error hen hf]; rfl
      | ok p =>
          by_cases hfat : e.level = LevelFatal
          · rw [log_eq_of_ok_fatal hen hf hfat]; rfl
          · rw [log_eq_of_ok_nonfatal hen hf hfat]; rfl
    · intro p hp
      by_cases hfat : e.level = LevelFatal
      · rw [log_eq_of_ok_fatal hen hp hfat]; rfl
      · rw [log_eq_of_ok_nonfatal hen hp hfat]; rfl
    · intro msg hm
      rw [log_eq_of_error hen hm]; rfl

/-- C1 witness: at the concrete succeeding logger and enabled
Info-level event, the amended theorem yields one formatter call and
one writer call. -/
theorem claimOne_witness :
    formatCount (okFormatLogger.Log okFormatEvent) = 1 ∧
      writeCount (okFormatLogger.Log okFormatEvent) = 1 := by
  have h := claimOne_amended okFormatLogger okFormatEvent rfl
  have h2 := h.2 (by decide)
  exact ⟨h2.1, h2.2.1 "out" rfl⟩

/-! ## C2 -/

/-- C2: a Fatal-level event terminates the process with exit status
1 after the writer call completes — the exit action always directly
follows a write and never precedes one — and an event at any other
level never terminates the process. -/
theorem claimTwo_fatal_exit (l : Logger) (e : Event) (hl : e.logger = l) :
    (e.level ≠ LevelFatal → ∀ c, Action.exitCall c ∉ l.Log e) ∧
    (∀ c, Action.exitCall c ∈ l.Log e →
      c = 1 ∧ ∃ pre d lv, l.Log e = pre ++ [Action.writeCall d lv, Action.exitCall 1]) ∧
    (e.level = LevelFatal → ∀ d lv, Action.writeCall d lv ∈ l.Log e →
      Action.exitCall 1 ∈ l.Log e) := by
  subst hl
  cases hen : isCurrentLevelEnabled e with
  | false =>
      rw [log_eq_of_disabled hen]
      simp
  | true =>
      cases hf : e.logger.format (trimmedLogEvent e) with
      | error msg =>
          rw [log_eq_of_error hen hf]
          simp
      | ok p =>
          by_cases hfat : e.level = LevelFatal
          · rw [log_eq_of_ok_fatal hen hf hfat]
            refine ⟨fun hne => absurd hfat hne, ?_, ?_⟩
            · intro c hc
              simp only [List.mem_cons, List.not_mem_nil, or_false] at hc
              rcases hc with hc | hc | hc
              · exact absurd hc (by simp)
              · exact absurd hc (by simp)
              · refine ⟨by injection hc, [Action.formatCall (trimmedLogEvent e)], p,
                  e.level, by simp⟩
            · intro _ d lv _
              simp
          · rw [log_eq_of_ok_nonfatal hen hf hfat]
            refine ⟨?_, ?_, fun h => absurd h hfat⟩
            · intro _ c hc
              simp only [List.mem_cons, List.not_mem_nil, or_false] at hc
              rcases hc with hc | hc
              · exact absurd hc (by simp)
              · exact absurd hc (by simp)
            · intro c hc
              simp only [List.mem_cons, List.not_mem_nil, or_false] at hc
              rcases hc with hc | hc
              · exact absurd hc (by simp)
              · exact absurd hc (by simp)

/-- C2 witness: a concrete Fatal-level event through the succeeding
logger reaches the exit action, and a concrete Info-level event
never exits. -/
theorem claimTwo_witness :
    Action.exitCall 1 ∈ okFormatLogger.Log okFatalEvent ∧
      Action.exitCall 1 ∉ okFormatLogger.Log okFormatEvent := by
  have hf := claimTwo_fatal_exit okFormatLogger okFatalEvent rfl
  have hi := claimTwo_fatal_exit okFormatLogger okFormatEvent rfl
  refine ⟨hf.2.2 rfl "out" LevelFatal (by decide), fun hmem => hi.1 (by decide) 1 hmem⟩

/-! ## C3 -/

/-- C3: the lazy message supplier of `MsgFunc` is invoked exactly
once when the event's level is enabled at call time, and zero times
— with no formatter or writer call at all — when it is not. -/
theorem claimThree_msgFunc_lazy (e : Event) (f : Unit → String) :
    ((e.MsgFunc f).1 = if isCurrentLevelEnabled e then 1 else 0) ∧
      (isCurrentLevelEnabled e = false → (e.MsgFunc f).2 = []) := by
  unfold Event.MsgFunc
  cases hen : isCurrentLevelEnabled e with
  | false => simp [hen]
  | true => simp [hen]

/-- C3 witness: a disabled Verbose-level event (logger max level
Info) never calls its supplier and produces an empty trace; an
enabled Info-level event calls it exactly once. -/
theorem claimThree_witness :
    (verboseEvent.MsgFunc fun _ => "expensive").1 = 0 ∧
      (verboseEvent.MsgFunc fun _ => "expensive").2 = [] ∧
      (okFormatEvent.MsgFunc fun _ => "expensive").1 = 1 := by
  have hv := claimThree_msgFunc_lazy verboseEvent (fun _ => "expensive")
  have hi := claimThree_msgFunc_lazy okFormatEvent (fun _ => "expensive")
  refine ⟨?_, hv.2 (by decide), ?_⟩
  · rw [hv.1]; decide
  · rw [hi.1]; decide

/-! ## C10 -/

/-- C10: when the formatter errors during dispatch, `Logger.Log`
returns without invoking the writer and without terminating the
process, even for Fatal-level events. -/
theorem claimTen_format_error_drops (l : Logger) (e : Event) (msg : String)
    (hl : e.logger = l)
    (hf : l.format (trimmedLogEvent e) = Except.error msg) :
    writeCount (l.Log e) = 0 ∧ ∀ c, Action.exitCall c ∉ l.Log e := by
  subst hl
  cases hen : isCurrentLevelEnabled e with
  | false =>
      rw [log_eq_of_disabled hen]
      exact ⟨rfl, by simp⟩
  | true =>
      rw [log_eq_of_error hen hf]
      refine ⟨rfl, fun c hc => ?_⟩
      simp only [List.mem_cons, List.not_mem_nil, or_false] at hc
      exact absurd hc (by simp)

/-- C10 witness: a concrete Fatal-level event whose formatter fails
produces no write and no exit. -/
theorem claimTen_witness :
    writeCount (failingFormatLogger.Log failingFatalEvent) = 0 ∧
      ∀ c, Action.exitCall c ∉ failingFormatLogger.Log failingFatalEvent := by
  exact claimTen_format_error_drops failingFormatLogger failingFatalEvent "fmt" rfl rfl


/-! ## C6 -/

/-- Helper: appending to a non-empty string yields a non-empty
string. -/
theorem append_ne_empty_left (a b : String) (h : a ≠ "") : a ++ b ≠ "" := by
  intro hc
  apply h
  have hd := congrArg String.data hc
  simp at hd
  exact congrArg String.mk hd.1

/-- C6: `WithAttrs` and `WithGroup` return fresh instances sharing
the writer, formatter, max level and timestamp policy with the
receiver; `WithAttrs` carries the receiver's attribute list
concatenated with the new attributes, `WithGroup` shares the
attribute list unchanged.  The receiver itself is a pure value and
is untouched by construction. -/
theorem claimSix_derivation_frame (l : Logger) (attrs : List (String × SlogValue))
    (name : String) :
    ((l.WithAttrs attrs).writer = l.writer ∧
     (l.WithAttrs attrs).maxLevel = l.maxLevel ∧
     (l.WithAttrs attrs).format = l.format ∧
     (l.WithAttrs attrs).timestamp = l.timestamp ∧
     (l.WithAttrs attrs).timestampMinLevel = l.timestampMinLevel ∧
     (l.WithAttrs attrs).groupPrefix = l.groupPrefix ∧
     (l.WithAttrs attrs).persistedAttrs = l.persistedAttrs ++ attrs) ∧
    ((l.WithGroup name).writer = l.writer ∧
     (l.WithGroup name).maxLevel = l.maxLevel ∧
     (l.WithGroup name).format = l.format ∧
     (l.WithGroup name).timestamp = l.timestamp ∧
     (l.WithGroup name).timestampMinLevel = l.timestampMinLevel ∧
     (l.WithGroup name).persistedAttrs = l.persistedAttrs) :=
  ⟨⟨rfl, rfl, rfl, rfl, rfl, rfl, rfl⟩, rfl, rfl, rfl, rfl, rfl, rfl⟩

/-! ## C7 -/

/-- C7: starting from an empty group prefix, deriving with group `a`
and then group `b` (both non-empty) yields the prefix `a.b.`, the
same prefix as a single derivation with name `a.b`, and every
metadata key stored through the doubly derived logger is prefixed
with `a.b.`. -/
theorem claimSeven_withGroup_assoc (l : Logger) (a b : String)
    (hp : l.groupPrefix = "") (ha : a ≠ "") (hb : b ≠ "") :
    ((l.WithGroup a).WithGroup b).groupPrefix = a ++ "." ++ b ++ "." ∧
    ((l.WithGroup a).WithGroup b).groupPrefix = (l.WithGroup (a ++ "." ++ b)).groupPrefix ∧
    ∀ key, handleKey ((l.WithGroup a).WithGroup b) key = a ++ "." ++ b ++ "." ++ key := by
  have haDot : a ++ "." ≠ "" := append_ne_empty_left a "." ha
  have hab : a ++ "." ++ b ≠ "" := append_ne_empty_left (a ++ ".") b haDot
  have h1 : (l.WithGroup a).groupPrefix = a ++ "." := by
    simp [Logger.WithGroup, ha, hp]
  have h2 : ((l.WithGroup a).WithGroup b).groupPrefix = a ++ "." ++ b ++ "." := by
    simp [Logger.WithGroup, hb, h1, haDot, ha, hp]
  have h3 : (l.WithGroup (a ++ "." ++ b)).groupPrefix = a ++ "." ++ b ++ "." := by
    simp [Logger.WithGroup, hab, hp]
  exact ⟨h2, h2.trans h3.symm, fun key => by rw [handleKey, h2]⟩

/-- C7 witness: with the concrete logger (empty prefix) and groups
`a` then `b`, the derived prefix is literally `a.b.`. -/
theorem claimSeven_witness :
    ((okFormatLogger.WithGroup "a").WithGroup "b").groupPrefix = "a.b." := by
  have h := claimSeven_withGroup_assoc okFormatLogger "a" "b" rfl (by decide) (by decide)
  rw [h.1]
  decide

/-! ## C8 -/

/-- C8: the adapter's value-to-string conversion renders a
100-millisecond duration as `100ms`, NaN as `NaN`, the infinities as
`+Inf`/`-Inf`, the zero timestamp as `0001-01-01T00:00:00Z`, a nil
untyped value as `<nil>`, booleans as `true`/`false` and integers in
base 10, and replaces any panic raised while formatting with a
fallback string embedding the failure reason, so the conversion
never aborts. -/
theorem claimEight_formatAttrValue :
    formatAttrValue (SlogValue.duration 100000000) = "100ms" ∧
    formatAttrValue (SlogValue.float64 GoFloat.nan) = "NaN" ∧
    formatAttrValue (SlogValue.float64 GoFloat.posInf) = "+Inf" ∧
    formatAttrValue (SlogValue.float64 GoFloat.negInf) = "-Inf" ∧
    formatAttrValue (SlogValue.time ⟨1, 1, 1, 0, 0, 0, 0⟩) = "0001-01-01T00:00:00Z" ∧
    formatAttrValue (SlogValue.any none) = "<nil>" ∧
    (∀ b : Bool, formatAttrValue (SlogValue.bool b) = if b then "true" else "false") ∧
    formatAttrValue (SlogValue.int64 (-1234567890)) = "-1234567890" ∧
    formatAttrValue (SlogValue.uint64 9876543210) = "9876543210" ∧
    (∀ reason : String, formatAttrValue (SlogValue.any (some (GoAny.panics reason))) =
      "<error formatting value: " ++ reason ++ ">") := by
  refine ⟨by decide, rfl, rfl, rfl, by decide, rfl, ?_, by decide, by decide, ?_⟩
  · intro b
    cases b <;> rfl
  · intro reason
    rfl

/-! ## C4 -/

/-- C4 counterexample: at the check tick at noon of 2021-01-01, for
a log file created at midnight the same day under a one-hour
rotation interval, the trigger claimed by the spec (age exceeded)
fires, yet the code performs no rotation, because the date embedded
in the file name is still the current day (and the options carry no
size threshold at all); moreover, on a tick where the code does
rotate (the next day), the old file is never renamed. -/
theorem claimFour_counterexample :
    specRotationTrigger 0 0 3600000000000 (instantOf ⟨2021, 1, 1⟩ 0)
        (instantOf ⟨2021, 1, 1⟩ 43200000000000) = true ∧
      checkAndRotateDecision "app-2021-01-01.log" "app" ⟨2021, 1, 1⟩ = false ∧
      ∀ src dst, FileAction.renameFile src dst ∉
        (checkAndRotateActions ⟨"", true, 3600000000000, "app-2021-01-01.log", false⟩
          "app" ⟨2021, 1, 2⟩).1 := by
  refine ⟨by decide, by decide, ?_⟩
  intro src dst
  intro hmem
  have hact : (checkAndRotateActions ⟨"", true, 3600000000000, "app-2021-01-01.log", false⟩
      "app" ⟨2021, 1, 2⟩).1 =
      [FileAction.closeFile "app-2021-01-01.log", FileAction.createFile "app-2021-01-02.log"] := by
    decide
  rw [hact] at hmem
  simp only [List.mem_cons, List.not_mem_nil, or_false] at hmem
  rcases hmem with h | h
  · exact absurd h (by simp)
  · exact absurd h (by simp)

/-- C4 (amended): on each check tick, a rotation is performed if and
only if the timestamp extracted from the stored file name (base-name
prefix and `.log` suffix trimmed) parses with the backup time format
and denotes a calendar day different from the current one; the file
size is never consulted (the options have no size field) and a write
only appends to the current file; on rotation the old file is closed
and left under its own name — compressed to `old.gz` and then
removed when compression is enabled — never renamed, and a fresh
file with a newly timestamped name is created. -/
theorem claimFour_amended (fileName base : String) (now : GoDate)
    (opts : FileWithRotationOptions) (data : Payload) (lvl : Level) :
    (checkAndRotateDecision fileName base now = true ↔
      ∃ t, parseBackupTime (extractBackupTimestamp fileName base) = some t ∧
        dateEqual t now = false) ∧
    (∀ src dst, FileAction.renameFile src dst ∉ (checkAndRotateActions opts base now).1) ∧
    fileWithRotationWrite fileName data lvl = [(fileName, data), (fileName, "\n")] := by
  refine ⟨?_, ?_, ?_⟩
  · unfold checkAndRotateDecision
    cases hp : parseBackupTime (extractBackupTimestamp fileName base) with
    | none => simp
    | some t =>
        simp only [Bool.not_eq_true']
        constructor
        · intro h
          exact ⟨t, rfl, h⟩
        · rintro ⟨t2, ht2, hd⟩
          injection ht2 with ht2
          rw [ht2]
          exact hd
  · intro src dst hmem
    unfold checkAndRotateActions at hmem
    by_cases hd : checkAndRotateDecision opts.FileName base now = true
    · rw [if_pos hd] at hmem
      by_cases hc : opts.Compress
      · simp only [hc, if_true, List.append_assoc, List.cons_append, List.nil_append,
          List.mem_cons, List.not_mem_nil, or_false] at hmem
        rcases hmem with h | h | h | h
        · exact absurd h (by simp)
        · exact absurd h (by simp)
        · exact absurd h (by simp)
        · exact absurd h (by simp)
      · simp only [hc, if_false, List.append_assoc, List.cons_append, List.nil_append,
          List.mem_cons, List.not_mem_nil, or_false] at hmem
        rcases hmem with h | h
        · exact absurd h (by simp)
        · exact absurd h (by simp)
    · rw [if_neg hd] at hmem
      exact absurd hmem (by simp)
  · unfold fileWithRotationWrite
    split <;> rfl

/-- C4 witness for the amended claim: on 2021-01-02 the stored name
`app-2021-01-01.log` rotates (timestamp parses, day differs), and on
2021-01-01 it does not. -/
theorem claimFour_witness :
    checkAndRotateDecision "app-2021-01-01.log" "app" ⟨2021, 1, 2⟩ = true ∧
      fileWithRotationWrite "app-2021-01-01.log" "payload" LevelInfo =
        [("app-2021-01-01.log", "payload"), ("app-2021-01-01.log", "\n")] := by
  have h := claimFour_amended "app-2021-01-01.log" "app" ⟨2021, 1, 2⟩
    ⟨"", true, 3600000000000, "app-2021-01-01.log", false⟩ "payload" LevelInfo
  refine ⟨h.1.mpr ⟨⟨2021, 1, 1⟩, by decide, by decide⟩, h.2.2⟩

/-! ## C5 -/

/-- C5 counterexample: in the legacy console writer variant
(unnamed/part_001 lines 58-70), an Info-level write sends the
payload to stderr but the trailing newline to stdout, refuting the
claim that at every non-Silent level both the payload and the
newline go to the diagnostic stream. -/
theorem claimFive_counterexample :
    cliWriteLegacy "hello" LevelInfo "\n" =
        [(OutStream.stderr, "hello"), (OutStream.stdout, "\n")] ∧
      ¬ (∀ p ∈ cliWriteLegacy "hello" LevelInfo "\n", p.1 = OutStream.stderr) := by
  decide

/-- C5 (amended): at Silent level both console writer variants write
the payload then the platform newline to stdout; at every other
level the payload goes to stderr, followed by the newline on stderr
in the current variant but on stdout in the legacy variant. -/
theorem claimFive_amended (data : Payload) (level : Level) (nl : String) :
    (level = LevelSilent →
      cliWrite data level nl = [(OutStream.stdout, data), (OutStream.stdout, nl)] ∧
      cliWriteLegacy data level nl = [(OutStream.stdout, data), (OutStream.stdout, nl)]) ∧
    (level ≠ LevelSilent →
      cliWrite data level nl = [(OutStream.stderr, data), (OutStream.stderr, nl)] ∧
      cliWriteLegacy data level nl = [(OutStream.stderr, data), (OutStream.stdout, nl)]) := by
  constructor
  · intro h
    constructor <;> simp [cliWrite, cliWriteLegacy, h]
  · intro h
    constructor <;> simp [cliWrite, cliWriteLegacy, h]

/-- C5 witness: concrete Silent and Error writes through the current
variant land on stdout and stderr respectively. -/
theorem claimFive_witness :
    cliWrite "m" LevelSilent "\n" = [(OutStream.stdout, "m"), (OutStream.stdout, "\n")] ∧
      cliWrite "m" LevelError "\n" = [(OutStream.stderr, "m"), (OutStream.stderr, "\n")] := by
  exact ⟨((claimFive_amended "m" LevelSilent "\n").1 rfl).1,
    ((claimFive_amended "m" LevelError "\n").2 (by decide)).1⟩

/-! ## C9 -/

/-- C9: evaluation at the failing input.  With a non-empty location
(the default configuration computes one under the working
directory), `buildRotateName` stores the full path in the options;
the next check's extraction trims only the `base ++ "-"` prefix,
which is not a prefix of the path, so the timestamp fails to parse
back with the same format that produced it and the rotation check is
silently skipped.  With an empty location the round-trip succeeds,
confirming the trimming slip is the cause. -/
theorem claimNine_roundtrip_bug :
    buildRotateName "logs" "app" ⟨2021, 1, 1⟩ = "logs/app-2021-01-01.log" ∧
    extractBackupTimestamp (buildRotateName "logs" "app" ⟨2021, 1, 1⟩) "app" =
      "logs/app-2021-01-01" ∧
    parseBackupTime (extractBackupTimestamp (buildRotateName "logs" "app" ⟨2021, 1, 1⟩) "app") =
      none ∧
    parseBackupTime (extractBackupTimestamp (buildRotateName "" "app" ⟨2021, 1, 1⟩) "app") =
      some ⟨2021, 1, 1⟩ := by
  refine ⟨by decide, by decide, by decide, by decide⟩

end Gologger
